import Mathlib

/-!
Verification of the Pro-Terra procedural-terrain core: the hydraulic
erosion simulator (`ErosionSimulator.js`), the terrain-analysis flow
accumulation (`HeightfieldService.js`) and the heightfield generator
(`HeightmapGenerationService.js`).

The JavaScript code is shallowly embedded: `Float32Array` heightfields
become `List ℚ` (reads are `List.getD _ 0` / `List.get?`, writes are
`List.set`, which like typed-array writes are no-ops out of bounds);
stateful classes become explicit state records; `Math.sqrt` (whose exact
floating-point values never matter for the properties below) is passed in
as an explicit function parameter `sq`; `Math.random` draws are passed in
explicitly.  Numeric literals such as `0.01` and `9.81` are embedded as
the rationals `1/100` and `981/100`.
-/

namespace ProTerra

/-- Physical parameters of the erosion simulation, mirroring the
defaulted `params` object of the `ErosionSimulator` constructor. -/
structure ErosionParams where
  inertia : ℚ := 1/20
  friction : ℚ := 1/50
  sedimentCapacityFactor : ℚ := 4
  depositionRate : ℚ := 3/10
  evaporationRate : ℚ := 1/100
  minVolume : ℚ := 1/100
  initialVolume : ℚ := 1
  initialSpeed : ℚ := 1
  maxDropletLifetime : ℕ := 30
  slopeMapFactor : ℚ := 1/1000
  deriving DecidableEq

/-- Transient droplet state, mirroring the object literal built by
`_createDroplet`. -/
structure Droplet where
  x : ℚ
  y : ℚ
  dx : ℚ
  dy : ℚ
  speed : ℚ
  water : ℚ
  sediment : ℚ
  lifetime : ℕ
  alive : Bool
  deriving DecidableEq

/-- Mutable state of an `ErosionSimulator` instance. -/
structure SimState where
  width : ℕ
  height : ℕ
  heightMap : List ℚ
  params : ErosionParams
  droplets : List Droplet
  dropletsActive : Bool

/-- Embeds `heightMap[i] += d` (the read is `getD _ 0`; out-of-bounds
writes are discarded by `List.set`, as by a `Float32Array`). -/
def bumpAt (hm : List ℚ) (i : ℕ) (d : ℚ) : List ℚ :=
  hm.set i (hm.getD i 0 + d)

/-- Embeds `heightMap[i] = Math.max(0, heightMap[i])`. -/
def clampAt (hm : List ℚ) (i : ℕ) : List ℚ :=
  hm.set i (max 0 (hm.getD i 0))

/-- Embeds `_bilinearAdd(heightMap, x, y, offX, offY, value)`: bilinearly
add `value` to the 4 corners of cell `(x, y)`, then clamp each touched
cell to `≥ 0`.  The source guards with
`x >= 0 && y >= 0 && x < width-1 && y < this.height-1`. -/
def bilinearAdd (width height : ℕ) (hm : List ℚ) (x y : ℤ) (offX offY value : ℚ) :
    List ℚ :=
  if 0 ≤ x ∧ 0 ≤ y ∧ x < (width : ℤ) - 1 ∧ y < (height : ℤ) - 1 then
    let w00 := (1 - offX) * (1 - offY)
    let w10 := offX * (1 - offY)
    let w01 := (1 - offX) * offY
    let w11 := offX * offY
    let i00 := y.toNat * width + x.toNat
    let i10 := i00 + 1
    let i01 := i00 + width
    let i11 := i00 + width + 1
    let hm1 := bumpAt hm i00 (value * w00)
    let hm2 := bumpAt hm1 i10 (value * w10)
    let hm3 := bumpAt hm2 i01 (value * w01)
    let hm4 := bumpAt hm3 i11 (value * w11)
    clampAt (clampAt (clampAt (clampAt hm4 i00) i10) i01) i11
  else hm

/-- Embeds the array access `heightMap[i]` of a `width*height` grid:
`none` marks an out-of-bounds access. -/
def readCell (hm : List ℚ) (i : ℕ) : Option ℚ := hm[i]?

/-- Embeds `_bilinearInterp(heightMap, x, y)`.  A `some` result means no
array access was out of bounds; the guard returns the neutral height 0
whenever `floor x` or `floor y` is outside `[0, width-2] × [0, height-2]`. -/
def bilinearInterp (width height : ℕ) (hm : List ℚ) (x y : ℚ) : Option ℚ :=
  let cellX : ℤ := ⌊x⌋
  let cellY : ℤ := ⌊y⌋
  let offX : ℚ := x - cellX
  let offY : ℚ := y - cellY
  if cellX < 0 ∨ cellY < 0 ∨ cellX ≥ (width : ℤ) - 1 ∨ cellY ≥ (height : ℤ) - 1 then
    some 0
  else
    let xi := cellX.toNat
    let yi := cellY.toNat
    (readCell hm (yi * width + xi)).bind fun h00 =>
    (readCell hm (yi * width + xi + 1)).bind fun h10 =>
    (readCell hm ((yi + 1) * width + xi)).bind fun h01 =>
    (readCell hm ((yi + 1) * width + xi + 1)).bind fun h11 =>
    some (h00 * (1 - offX) * (1 - offY) + h10 * offX * (1 - offY)
      + h01 * (1 - offX) * offY + h11 * offX * offY)

/-- Total version of `bilinearInterp` used inside the droplet step (its
accesses are proved in-bounds for well-formed heightfields, see
`bilinearInterp_isSome`). -/
def interpH (width height : ℕ) (hm : List ℚ) (x y : ℚ) : ℚ :=
  (bilinearInterp width height hm x y).getD 0

/-- Embeds `_calcGradient(heightMap, x, y)` (central differences of the
bilinearly interpolated height).  The guard returns the neutral gradient
`(0, 0)` whenever `floor x` or `floor y` is outside
`[1, width-3] × [1, height-3]`. -/
def calcGradient (width height : ℕ) (hm : List ℚ) (x y : ℚ) : Option (ℚ × ℚ) :=
  let cellX : ℤ := ⌊x⌋
  let cellY : ℤ := ⌊y⌋
  if cellX < 1 ∨ cellY < 1 ∨ cellX ≥ (width : ℤ) - 2 ∨ cellY ≥ (height : ℤ) - 2 then
    some (0, 0)
  else
    (bilinearInterp width height hm (x - 1) y).bind fun hL =>
    (bilinearInterp width height hm (x + 1) y).bind fun hR =>
    (bilinearInterp width height hm x (y - 1)).bind fun hD =>
    (bilinearInterp width height hm x (y + 1)).bind fun hU =>
    some ((hR - hL) * (1/2), (hU - hD) * (1/2))

/-- Total version of `calcGradient` used inside the droplet step. -/
def gradH (width height : ℕ) (hm : List ℚ) (x y : ℚ) : ℚ × ℚ :=
  (calcGradient width height hm x y).getD (0, 0)

/-- Embeds the `Erode or deposit` block of `stepDroplets`: returns the
updated heightfield and the droplet's updated sediment load. -/
def depositOrErode (width height : ℕ) (p : ErosionParams) (hm : List ℚ)
    (cellX cellY : ℤ) (offX offY sediment capacity newH : ℚ) : List ℚ × ℚ :=
  if sediment > capacity then
    let deposit := (sediment - capacity) * p.depositionRate
    (bilinearAdd width height hm cellX cellY offX offY deposit,
     sediment - deposit)
  else
    let erode := min ((capacity - sediment) * p.depositionRate) newH
    if erode > 0 then
      (bilinearAdd width height hm cellX cellY offX offY (-erode),
       sediment + erode)
    else (hm, sediment)

/-- Embeds the velocity update and normalisation of the droplet step:
blend the old direction with the downhill gradient by inertia, then
normalise to unit length unless the length is zero. -/
def stepDir (p : ErosionParams) (sq : ℚ → ℚ) (grad : ℚ × ℚ) (dx dy : ℚ) :
    ℚ × ℚ :=
  let dx1 := dx * p.inertia - grad.1 * (1 - p.inertia)
  let dy1 := dy * p.inertia - grad.2 * (1 - p.inertia)
  let len := sq (dx1 * dx1 + dy1 * dy1)
  if len ≠ 0 then (dx1 / len, dy1 / len) else (dx1, dy1)

/-- Embeds one iteration of the per-droplet loop body of `stepDroplets`
(source lines 71-145) for a single alive droplet: velocity update,
normalisation, move, boundary kill, speed/capacity update,
deposit-or-erode via `_bilinearAdd`, evaporation, lifetime and kill
checks.  `sq` stands for `Math.sqrt`. -/
def stepDroplet (width height : ℕ) (p : ErosionParams) (sq : ℚ → ℚ)
    (hm : List ℚ) (d : Droplet) : List ℚ × Droplet :=
  let cellX : ℤ := ⌊d.x⌋
  let cellY : ℤ := ⌊d.y⌋
  let offX : ℚ := d.x - cellX
  let offY : ℚ := d.y - cellY
  let h := interpH width height hm d.x d.y
  let grad := gradH width height hm d.x d.y
  let dir := stepDir p sq grad d.dx d.dy
  let x1 := d.x + dir.1
  let y1 := d.y + dir.2
  if x1 < 1 ∨ x1 > (width : ℚ) - 2 ∨ y1 < 1 ∨ y1 > (height : ℚ) - 2 then
    (hm, { d with x := x1, y := y1, dx := dir.1, dy := dir.2, alive := false })
  else
    let newH := interpH width height hm x1 y1
    let deltaH := newH - h
    let speed1 := sq (max 0 (d.speed * d.speed + deltaH * (-(981/100))))
    let speed2 := speed1 * (1 - p.friction)
    let capacity := max (-deltaH) (1/100) * speed2 * d.water * p.sedimentCapacityFactor
    let de := depositOrErode width height p hm cellX cellY offX offY
      d.sediment capacity newH
    let water1 := d.water * (1 - p.evaporationRate)
    let lifetime1 := d.lifetime + 1
    let alive1 :=
      ¬(water1 < p.minVolume ∨ lifetime1 > p.maxDropletLifetime ∨ speed2 < 1/100)
    (de.1, { x := x1, y := y1, dx := dir.1, dy := dir.2, speed := speed2,
             water := water1, sediment := de.2, lifetime := lifetime1,
             alive := alive1 })

/-- Embeds the droplet loop of `stepDroplets`: process droplets in pool
order, skipping dead ones, until `budget` (the batch size) alive droplets
have been stepped. -/
def stepLoop (width height : ℕ) (p : ErosionParams) (sq : ℚ → ℚ)
    (hm : List ℚ) : List Droplet → ℕ → List ℚ × List Droplet
  | [], _ => (hm, [])
  | d :: rest, budget =>
    if budget = 0 then (hm, d :: rest)
    else if d.alive then
      let (hm1, d1) := stepDroplet width height p sq hm d
      let (hm2, rest1) := stepLoop width height p sq hm1 rest (budget - 1)
      (hm2, d1 :: rest1)
    else
      let (hm1, rest1) := stepLoop width height p sq hm rest budget
      (hm1, d :: rest1)

/-- Embeds `stepDroplets(batchSize)`: step up to `batchSize` alive
droplets once each and report whether any droplet is still alive.  Note
the source never consults `dropletsActive` here. -/
def stepDroplets (sq : ℚ → ℚ) (s : SimState) (batchSize : ℕ) :
    SimState × Bool :=
  let (hm1, ds1) :=
    stepLoop s.width s.height s.params sq s.heightMap s.droplets batchSize
  ({ s with heightMap := hm1, droplets := ds1 }, ds1.any (·.alive))

/-- Embeds `_createDroplet()`; `r1` and `r2` are the two `Math.random()`
draws (values in `[0,1)`). -/
def createDroplet (width height : ℕ) (p : ErosionParams) (r1 r2 : ℚ) : Droplet :=
  { x := r1 * ((width : ℚ) - 2) + 1
    y := r2 * ((height : ℚ) - 2) + 1
    dx := 0
    dy := 0
    speed := p.initialSpeed
    water := p.initialVolume
    sediment := 0
    lifetime := 0
    alive := true }

/-- Embeds `resetDroplets(numDroplets)`; `rand` is the `Math.random()`
stream (the `i`-th droplet consumes draws `2*i` and `2*i+1`). -/
def resetDroplets (s : SimState) (numDroplets : ℕ) (rand : ℕ → ℚ) : SimState :=
  { s with
    droplets := (List.range numDroplets).map fun i =>
      createDroplet s.width s.height s.params (rand (2 * i)) (rand (2 * i + 1))
    dropletsActive := true }

/-- Embeds `start(numDroplets, resetHeightmap, initialHeightMap)`. -/
def startSim (s : SimState) (numDroplets : ℕ) (resetHeightmap : Bool)
    (initialHeightMap : Option (List ℚ)) (rand : ℕ → ℚ) : SimState :=
  let s1 :=
    match resetHeightmap, initialHeightMap with
    | true, some ihm => { s with heightMap := ihm }
    | _, _ => s
  resetDroplets s1 numDroplets rand

/-- Embeds `pause()`: only the `dropletsActive` flag is written. -/
def pauseSim (s : SimState) : SimState := { s with dropletsActive := false }

/-- Embeds `resume()`. -/
def resumeSim (s : SimState) : SimState := { s with dropletsActive := true }

/-- Embeds the `ErosionSimulator` constructor.  The source performs no
validation of `width`, `height` or the parameters and has no reachable
throw site, so the result is always `Except.ok`; the droplet pool is
uninitialised until `resetDroplets`, modelled as empty. -/
def mkSimulator (width height : ℕ) (hm : List ℚ) (p : ErosionParams) :
    Except String SimState :=
  .ok { width := width, height := height, heightMap := hm, params := p,
        droplets := [], dropletsActive := false }

/-- Folding a sequence of `stepDroplets` calls (one entry of `batches`
per call) over a simulator state. -/
def runBatches (sq : ℚ → ℚ) (s : SimState) (batches : List ℕ) : SimState :=
  batches.foldl (fun st b => (stepDroplets sq st b).1) s

/-- One single-droplet step as performed by `stepDroplets` on a pool
entry: dead droplets are skipped (`if (!d.alive) continue`), alive ones
are stepped once. -/
def stepIfAlive (width height : ℕ) (p : ErosionParams) (sq : ℚ → ℚ)
    (st : List ℚ × Droplet) : List ℚ × Droplet :=
  if st.2.alive then stepDroplet width height p sq st.1 st.2 else st

/-- The default erosion parameters with the given droplet lifetime cap
(all values inside the ranges the spec allows for `ErosionParams`). -/
def flatParams (maxLifetime : ℕ) : ErosionParams :=
  { maxDropletLifetime := maxLifetime }

/-- A freshly created droplet at the centre of a 5×5 grid (unit speed
and water, as `_createDroplet` produces from the default parameters). -/
def calmDroplet : Droplet :=
  { x := 2, y := 2, dx := 0, dy := 0, speed := 1, water := 1, sediment := 0,
    lifetime := 0, alive := true }

/-- Non-negativity of every cell of a heightfield (reads past the end of
the backing list give the default 0). -/
def allNonneg (l : List ℚ) : Prop := ∀ j : ℕ, 0 ≤ l.getD j 0

/-- A paused simulator on a flat 5×5 grid holding one alive droplet. -/
def pausedCalmSim (maxLifetime : ℕ) : SimState :=
  pauseSim
    { width := 5, height := 5, heightMap := List.replicate 25 0,
      params := flatParams maxLifetime, droplets := [calmDroplet],
      dropletsActive := true }

/-- Computable rational stand-in for `Math.sqrt`: exact on rationals
whose numerator and denominator are perfect squares (in particular
`ratSqrt 0 = 0` and `ratSqrt 1 = 1`, the only values the concrete traces
below take), and some rational approximation elsewhere. -/
def ratSqrt (q : ℚ) : ℚ :=
  if q ≤ 0 then 0 else (Nat.sqrt q.num.toNat : ℚ) / (Nat.sqrt q.den : ℚ)

/-!  Terrain analysis: `computeFlowMap` of `HeightfieldService.js`. -/

/-- The 8 neighbour offsets `(dx, dy)` in the scan order of the nested
`for (dy) for (dx)` loops of `computeFlowMap` (centre skipped). -/
def neighborOffsets : List (ℤ × ℤ) :=
  [(-1, -1), (0, -1), (1, -1), (-1, 0), (1, 0), (-1, 1), (0, 1), (1, 1)]

/-- Embeds the downslope-neighbour scan of `computeFlowMap` for the cell
`(x, y)`: the first strictly lower neighbour found in scan order (the
cell itself when no neighbour is strictly lower). -/
def downslopeAt (width height : ℕ) (hm : List ℚ) (x y : ℕ) : ℕ :=
  let idx := y * width + x
  (neighborOffsets.foldl
    (fun acc off =>
      let nx := (x : ℤ) + off.1
      let ny := (y : ℤ) + off.2
      if 0 ≤ nx ∧ nx < (width : ℤ) ∧ 0 ≤ ny ∧ ny < (height : ℤ) then
        let nIdx := (ny * (width : ℤ) + nx).toNat
        if hm.getD nIdx 0 < acc.1 then (hm.getD nIdx 0, nIdx) else acc
      else acc)
    (hm.getD idx 0, idx)).2

/-- Stable insertion of `a` into a list already sorted ascending by
`key`: `a` goes after every element whose key is `≤ key a`. -/
def insertAsc (key : ℕ → ℚ) (a : ℕ) : List ℕ → List ℕ
  | [] => [a]
  | b :: bs => if key b ≤ key a then b :: insertAsc key a bs else a :: b :: bs

/-- Stable ascending sort by `key`, modelling the JavaScript
`indices.sort((a, b) => heightMap[a] - heightMap[b])` (ECMAScript
`Array.prototype.sort` is stable). -/
def sortAsc (key : ℕ → ℚ) (l : List ℕ) : List ℕ :=
  l.foldl (fun acc a => insertAsc key a acc) []

/-- Embeds `computeFlowMap(heightMap, width, height)`: every cell starts
with flow 1; cells are visited in ascending height order and each
non-sink cell adds its current flow to its downslope target. -/
def computeFlowMap (width height : ℕ) (hm : List ℚ) : List ℚ :=
  let n := width * height
  let downslope := fun i => downslopeAt width height hm (i % width) (i / width)
  let sorted := sortAsc (fun i => hm.getD i 0) (List.range n)
  sorted.foldl
    (fun flow idx =>
      let ds := downslope idx
      if ds ≠ idx then flow.set ds (flow.getD ds 0 + flow.getD idx 0) else flow)
    (List.replicate n 1)

/-- Total flow over the sink cells (cells whose downslope target is
themselves) of a flow map. -/
def sinkFlowSum (width height : ℕ) (hm flow : List ℚ) : ℚ :=
  ∑ i ∈ Finset.range (width * height),
    if downslopeAt width height hm (i % width) (i / width) = i
    then flow.getD i 0 else 0

/-!  Heightfield generation: `HeightmapGenerationService.js`.

The external noise libraries (`alea`, `noisejs`, `worley-noise`) and the
transcendental `Math` functions are not part of this repository; they are
modelled as an explicit environment of deterministic functions of their
seeds.  The `ambient` stream stands for the global `Math.random`
generator, which `generateTerrainInternal` never consults. -/

/-- Effective generation parameters (the source merges user params over
`defaultParams`, so every field is present). -/
structure GenParams where
  octaves : ℕ := 6
  ridgedOffset : ℚ := 1/2
  gain : ℚ := 1/2
  lacunarity : ℚ := 2
  amplitude : ℚ := 1
  domainWarpStrength : ℚ := 7/20
  domainWarpFreq : ℚ := 2/25
  frequency : ℚ := 3/20
  worleyPoints : ℤ := 1024
  worleySeed : ℚ := 0
  worleyDimension : ℤ := 2
  windDirection : ℚ := 0
  meshResolution : ℤ := 512
  size : ℚ := 1000
  applySmoothing : Bool := true
  smoothIterations : ℕ := 1
  smoothFactor : ℚ := 1/2
  seed : ℚ := 0

/-- Deterministic environment standing for the external noise libraries
and the transcendental `Math` functions: `alea s i` is the `i`-th draw of
an `Alea(s)` stream, `noiseSimplex2`/`noisePerlin2 s x y` are the methods
of `new Noise(s)`, `worleyMk` builds the `getEuclidean` query of a
`WorleyNoise` instance (`none` models a failed initialisation, which the
source recovers from via its brute-force fallback). -/
structure NoiseEnv where
  alea : ℚ → ℕ → ℚ
  noiseSimplex2 : ℚ → ℚ → ℚ → ℚ
  noisePerlin2 : ℚ → ℚ → ℚ → ℚ
  worleyMk : ℤ → ℤ → ℤ → List (ℚ × ℚ) → Option (ℚ → ℚ → ℚ)
  cosQ : ℚ → ℚ
  sinQ : ℚ → ℚ
  sqrtQ : ℚ → ℚ

/-- Embeds `clamp01Internal(v)`. -/
def clamp01Internal (v : ℚ) : ℚ := max 0 (min 1 v)

/-- Embeds `createWorleyPointsInternal(count, seed)`: `count` points with
coordinates drawn in pairs from an `Alea(seed)` stream. -/
def createWorleyPointsInternal (env : NoiseEnv) (count : ℕ) (seed : ℚ) :
    List (ℚ × ℚ) :=
  (List.range count).map fun i => (env.alea seed (2 * i), env.alea seed (2 * i + 1))

/-- Embeds the brute-force `getEuclidean` fallback used when the Worley
backend fails to initialise: minimum Euclidean distance to the point set
(the point set is never empty, since at least 128 points are generated). -/
def fallbackEuclidean (env : NoiseEnv) (pts : List (ℚ × ℚ)) (px py : ℚ) : ℚ :=
  match pts with
  | [] => 0
  | q :: rest =>
    rest.foldl
      (fun m r => min m (env.sqrtQ ((px - r.1) * (px - r.1) + (py - r.2) * (py - r.2))))
      (env.sqrtQ ((px - q.1) * (px - q.1) + (py - q.2) * (py - q.2)))

/-- Embeds `new Float32Array(len)`: a zero-filled buffer, or a thrown
`RangeError` when the requested length is negative (the only throw site
reachable from `generateTerrainInternal`, and in fact never reached since
the requested lengths are squares). -/
def float32Alloc (len : ℤ) : Except String (List ℚ) :=
  if len < 0 then .error "RangeError: invalid typed array length"
  else .ok (List.replicate len.toNat 0)

/-- Embeds the per-cell octave accumulation loop of
`generateTerrainInternal` (domain warp, three ridged noise families,
micro detail, amplitude/frequency progression).  `worleyF` is the
resolved `getEuclidean` query, `noiseSeed` the value seeding `new
Noise(...)`. -/
def cellHeight (env : NoiseEnv) (p : GenParams) (worleyF : ℚ → ℚ → ℚ)
    (noiseSeed : ℚ) (worldX worldY : ℚ) : ℚ :=
  let dirX := env.cosQ p.windDirection
  let dirY := env.sinQ p.windDirection
  let step := fun (acc : ℚ × ℚ × ℚ) (o : ℕ) =>
    let (h, currentAmp, currentFreq) := acc
    let warpNoiseFreq := p.domainWarpFreq * p.lacunarity ^ o
    let warpNoiseAmp := p.domainWarpStrength * currentAmp
    let warpOffsetX :=
      env.noiseSimplex2 noiseSeed (worldX * warpNoiseFreq) (worldY * warpNoiseFreq)
        * warpNoiseAmp * dirX
    let warpOffsetY :=
      env.noiseSimplex2 noiseSeed (worldX * warpNoiseFreq + 100)
        (worldY * warpNoiseFreq + 100) * warpNoiseAmp * dirY
    let warpedX := worldX + warpOffsetX
    let warpedY := worldY + warpOffsetY
    let vSimplex0 := env.noiseSimplex2 noiseSeed (warpedX * currentFreq) (warpedY * currentFreq)
    let vPerlin0 := env.noisePerlin2 noiseSeed (warpedX * currentFreq) (warpedY * currentFreq)
    let normX := clamp01Internal (warpedX / p.size + 1/2)
    let normY := clamp01Internal (warpedY / p.size + 1/2)
    let vWorley0 := 1 - 2 * worleyF normX normY
    let vSimplex := (p.ridgedOffset - |vSimplex0|) * (p.ridgedOffset - |vSimplex0|)
    let vPerlin := (p.ridgedOffset - |vPerlin0|) * (p.ridgedOffset - |vPerlin0|)
    let vWorley := (p.ridgedOffset - |vWorley0|) * (p.ridgedOffset - |vWorley0|)
    let v := (vSimplex + vPerlin + vWorley) / 3
      + env.noiseSimplex2 noiseSeed (warpedX * currentFreq * 4) (warpedY * currentFreq * 4)
        * (1/10)
    (h + v * currentAmp, currentAmp * p.gain, currentFreq * p.lacunarity)
  ((List.range p.octaves).foldl step (0, 1, p.frequency)).1

/-- Fills the allocated grid buffer row by row (`heightmapArray[iy *
gridWidth + ix] = ...`); when a grid dimension is non-positive the write
loops do not run and the buffer keeps its zeros. -/
def fillGrid (alloc : List ℚ) (gw gh : ℤ) (f : ℕ → ℕ → ℚ) : List ℚ :=
  if 0 < gw ∧ 0 < gh then
    (List.range gh.toNat).flatMap fun iy => (List.range gw.toNat).map fun ix => f iy ix
  else alloc

/-- Embeds the edge-blending pass: within a 1-cell margin of the border
the height is scaled by `t = edgeDist / margin` (0 on the border itself). -/
def edgeBlendCell (gw gh : ℤ) (iy ix : ℕ) (v : ℚ) : ℚ :=
  let edgeDistX := min (ix : ℤ) (gw - 1 - ix)
  let edgeDistY := min (iy : ℤ) (gh - 1 - iy)
  let edgeDist := min edgeDistX edgeDistY
  if edgeDist < 1 then v * edgeDist else v

/-- Embeds `THREE.MathUtils.lerp(x, y, t)`. -/
def lerp (x y t : ℚ) : ℚ := x + (y - x) * t

/-- Embeds one smoothing pass of `applySmoothingInternal` over the `z`
values: weighted 3×3 neighbourhood average (corner weight 1/2,
orthogonal weight 1, self weight 1, missing neighbours dropped), blended
with the original value by `factor`.  The source's first, discarded
accumulation block is dead code and not modelled. -/
def smoothPass (gw gh : ℕ) (factor : ℚ) (zs : List ℚ) : List ℚ :=
  let kernel : List (ℤ × ℤ × ℚ) :=
    [(-1, -1, 1/2), (0, -1, 1), (1, -1, 1/2),
     (-1, 0, 1), (1, 0, 1),
     (-1, 1, 1/2), (0, 1, 1), (1, 1, 1/2)]
  (List.range zs.length).map fun i =>
    let x := i % gw
    let y := i / gw
    let acc := kernel.foldl
      (fun (sw : ℚ × ℚ) k =>
        let nx := (x : ℤ) + k.1
        let ny := (y : ℤ) + k.2.1
        if 0 ≤ nx ∧ nx < (gw : ℤ) ∧ 0 ≤ ny ∧ ny < (gh : ℤ) then
          (sw.1 + zs.getD (ny * gw + nx).toNat 0 * k.2.2, sw.2 + k.2.2)
        else sw)
      (zs.getD i 0, 1)
    lerp (zs.getD i 0) (acc.1 / acc.2) factor

/-- Embeds `applySmoothingInternal`: the `|| default` fallbacks treat a
zero iteration count or factor as the defaults 1 and 1/2. -/
def applySmoothingInternal (gw gh : ℕ) (smoothIterations : ℕ) (smoothFactor : ℚ)
    (zs : List ℚ) : List ℚ :=
  let iterations := if smoothIterations = 0 then 1 else smoothIterations
  let factor := if smoothFactor = 0 then 1/2 else smoothFactor
  Nat.rec zs (fun _ prev => smoothPass gw gh factor prev) iterations

/-- Result of heightfield generation. -/
structure GenResult where
  heightmap : List ℚ
  width : ℤ
  height : ℤ
  deriving DecidableEq

/-- Embeds `generateTerrainInternal(params)`.  `ambient` is the global
`Math.random` stream available to the code; the function never samples
it, which is what the determinism property comes down to. -/
def generateTerrainInternal (env : NoiseEnv) (ambient : ℕ → ℚ) (p : GenParams) :
    Except String GenResult := do
  let _ := ambient
  let gridWidth : ℤ := p.meshResolution + 1
  let gridHeight : ℤ := p.meshResolution + 1
  let noiseSeed := env.alea p.seed 0
  let numWorleyPoints : ℤ := max 128 (min 4096 p.worleyPoints)
  let worleySeedActual := if p.worleySeed ≠ 0 then p.worleySeed else p.seed
  let worleyPointsArray :=
    createWorleyPointsInternal env numWorleyPoints.toNat worleySeedActual
  let worleyF :=
    match env.worleyMk numWorleyPoints ⌊worleySeedActual⌋ p.worleyDimension
        worleyPointsArray with
    | some f => f
    | none => fallbackEuclidean env worleyPointsArray
  let heightmapAlloc ← float32Alloc (gridWidth * gridHeight)
  let _vertexAlloc ← float32Alloc (gridWidth * gridHeight * 3)
  let rawHeights := fillGrid heightmapAlloc gridWidth gridHeight fun iy ix =>
    let worldX := ((ix : ℚ) / ((gridWidth : ℚ) - 1) - 1/2) * p.size
    let worldY := ((iy : ℚ) / ((gridHeight : ℚ) - 1) - 1/2) * p.size
    cellHeight env p worleyF noiseSeed worldX worldY * p.amplitude
  let blended := fillGrid rawHeights gridWidth gridHeight fun iy ix =>
    edgeBlendCell gridWidth gridHeight iy ix
      (rawHeights.getD (iy * gridWidth.toNat + ix) 0)
  let smoothed :=
    if p.applySmoothing then
      applySmoothingInternal gridWidth.toNat gridHeight.toNat
        p.smoothIterations p.smoothFactor blended
    else blended
  pure { heightmap := smoothed, width := gridWidth, height := gridHeight }

/-- Degenerate concrete noise environment used to evaluate the generator
at concrete parameters (any environment works; the claims quantify over
all of them). -/
def zeroEnv : NoiseEnv :=
  { alea := fun _ _ => 0
    noiseSimplex2 := fun _ _ _ => 0
    noisePerlin2 := fun _ _ _ => 0
    worleyMk := fun _ _ _ _ => none
    cosQ := fun _ => 1
    sinQ := fun _ => 0
    sqrtQ := fun _ => 0 }

/-!  Basic lemmas about the bilinear interpolation helpers. -/

/-- Cells of a well-formed heightfield can be read at any index below
`width * height`. -/
theorem readCell_isSome (hm : List ℚ) (i : ℕ) (width height : ℕ)
    (hlen : hm.length = width * height) (hi : i < width * height) :
    ∃ v, readCell hm i = some v := by
  refine ⟨hm.get ⟨i, ?_⟩, ?_⟩
  · omega
  · simp [readCell, List.getElem?_eq_getElem, hlen ▸ hi]

/-- The four corner indices read by `bilinearInterp` and `bilinearAdd`
are in bounds whenever the cell coordinates pass the range guard. -/
theorem corner_index_bound (width height xi yi : ℕ)
    (hx : xi + 1 < width) (hy : yi + 1 < height) :
    yi * width + xi + width + 1 < width * height := by
  have hx1 : xi + width + 1 < 2 * width := by omega
  calc yi * width + xi + width + 1
      = yi * width + (xi + width + 1) := by ring
    _ < yi * width + 2 * width := Nat.add_lt_add_left hx1 _
    _ = (yi + 2) * width := by ring
    _ ≤ height * width := Nat.mul_le_mul_right width (by omega)
    _ = width * height := Nat.mul_comm _ _

/-- `bilinearInterp` performs no out-of-bounds array access on a
well-formed heightfield: it always returns a value. -/
theorem bilinearInterp_isSome (width height : ℕ) (hm : List ℚ) (x y : ℚ)
    (hlen : hm.length = width * height) :
    ∃ v, bilinearInterp width height hm x y = some v := by
  unfold bilinearInterp
  by_cases hg : ⌊x⌋ < 0 ∨ ⌊y⌋ < 0 ∨ ⌊x⌋ ≥ (width : ℤ) - 1 ∨ ⌊y⌋ ≥ (height : ℤ) - 1
  · exact ⟨0, by rw [if_pos hg]⟩
  · push_neg at hg
    obtain ⟨h1, h2, h3, h4⟩ := hg
    have hxw : (⌊x⌋).toNat + 1 < width := by omega
    have hyh : (⌊y⌋).toNat + 1 < height := by omega
    have hb := corner_index_bound width height (⌊x⌋).toNat (⌊y⌋).toNat hxw hyh
    have hb00 : (⌊y⌋).toNat * width + (⌊x⌋).toNat < width * height := by
      refine Nat.lt_of_le_of_lt ?_ hb
      calc (⌊y⌋).toNat * width + (⌊x⌋).toNat
          ≤ (⌊y⌋).toNat * width + (⌊x⌋).toNat + (width + 1) := Nat.le_add_right _ _
        _ = (⌊y⌋).toNat * width + (⌊x⌋).toNat + width + 1 := by ring
    have hb10 : (⌊y⌋).toNat * width + (⌊x⌋).toNat + 1 < width * height := by
      refine Nat.lt_of_le_of_lt ?_ hb
      calc (⌊y⌋).toNat * width + (⌊x⌋).toNat + 1
          ≤ (⌊y⌋).toNat * width + (⌊x⌋).toNat + 1 + width := Nat.le_add_right _ _
        _ = (⌊y⌋).toNat * width + (⌊x⌋).toNat + width + 1 := by ring
    have hb01 : ((⌊y⌋).toNat + 1) * width + (⌊x⌋).toNat < width * height := by
      refine Nat.lt_of_le_of_lt ?_ hb
      calc ((⌊y⌋).toNat + 1) * width + (⌊x⌋).toNat
          ≤ ((⌊y⌋).toNat + 1) * width + (⌊x⌋).toNat + 1 := Nat.le_add_right _ _
        _ = (⌊y⌋).toNat * width + (⌊x⌋).toNat + width + 1 := by ring
    have hb11 : ((⌊y⌋).toNat + 1) * width + (⌊x⌋).toNat + 1 < width * height := by
      calc ((⌊y⌋).toNat + 1) * width + (⌊x⌋).toNat + 1
          = (⌊y⌋).toNat * width + (⌊x⌋).toNat + width + 1 := by ring
        _ < width * height := hb
    obtain ⟨v00, e00⟩ := readCell_isSome hm _ width height hlen hb00
    obtain ⟨v10, e10⟩ := readCell_isSome hm _ width height hlen hb10
    obtain ⟨v01, e01⟩ := readCell_isSome hm _ width height hlen hb01
    obtain ⟨v11, e11⟩ := readCell_isSome hm _ width height hlen hb11
    have hneg : ¬(⌊x⌋ < 0 ∨ ⌊y⌋ < 0 ∨ ⌊x⌋ ≥ (width : ℤ) - 1 ∨ ⌊y⌋ ≥ (height : ℤ) - 1) := by
      push_neg
      exact ⟨h1, h2, h3, h4⟩
    simp only [if_neg hneg, e00, e10, e01, e11, Option.some_bind]
    exact ⟨_, rfl⟩

/-- `calcGradient` performs no out-of-bounds array access on a
well-formed heightfield: it always returns a gradient. -/
theorem calcGradient_isSome (width height : ℕ) (hm : List ℚ) (x y : ℚ)
    (hlen : hm.length = width * height) :
    ∃ g, calcGradient width height hm x y = some g := by
  unfold calcGradient
  by_cases hg : ⌊x⌋ < 1 ∨ ⌊y⌋ < 1 ∨ ⌊x⌋ ≥ (width : ℤ) - 2 ∨ ⌊y⌋ ≥ (height : ℤ) - 2
  · exact ⟨(0, 0), by rw [if_pos hg]⟩
  · obtain ⟨vL, eL⟩ := bilinearInterp_isSome width height hm (x - 1) y hlen
    obtain ⟨vR, eR⟩ := bilinearInterp_isSome width height hm (x + 1) y hlen
    obtain ⟨vD, eD⟩ := bilinearInterp_isSome width height hm x (y - 1) hlen
    obtain ⟨vU, eU⟩ := bilinearInterp_isSome width height hm x (y + 1) hlen
    simp only [if_neg hg, eL, eR, eD, eU, Option.some_bind]
    exact ⟨_, rfl⟩

/-!  List-update helper lemmas. -/

/-- Reading an updated list off the updated index. -/
theorem getD_set_ne (l : List ℚ) (i j : ℕ) (v : ℚ) (h : i ≠ j) :
    (l.set i v).getD j 0 = l.getD j 0 := by
  simp [List.getD_eq_getElem?_getD, List.getElem?_set_ne h]

/-- Reading an updated list at the updated (in-range) index. -/
theorem getD_set_self (l : List ℚ) (i : ℕ) (v : ℚ) (h : i < l.length) :
    (l.set i v).getD i 0 = v := by
  simp [List.getD_eq_getElem?_getD, List.getElem?_set_self h]

/-- Reading past the end of a list gives the default. -/
theorem getD_of_length_le (l : List ℚ) (i : ℕ) (h : l.length ≤ i) :
    l.getD i 0 = 0 := by
  simp [List.getD_eq_getElem?_getD, List.getElem?_eq_none h]

/-- Sum of a list after an in-range update. -/
theorem sum_set_of_lt (l : List ℚ) :
    ∀ i : ℕ, i < l.length → ∀ v : ℚ, (l.set i v).sum = l.sum - l.getD i 0 + v := by
  induction l with
  | nil => intro i hi; simp at hi
  | cons a t ih =>
    intro i hi v
    cases i with
    | zero => simp [List.set]; ring
    | succ n =>
      have hn : n < t.length := by simpa using hi
      simp only [List.set, List.sum_cons, List.getD_cons_succ, ih n hn v]
      ring

/-- `clampAt` leaves other positions unchanged. -/
theorem clampAt_getD_ne (l : List ℚ) (i j : ℕ) (h : i ≠ j) :
    (clampAt l i).getD j 0 = l.getD j 0 := getD_set_ne _ _ _ _ h

/-- `bumpAt` leaves other positions unchanged. -/
theorem bumpAt_getD_ne (l : List ℚ) (i j : ℕ) (d : ℚ) (h : i ≠ j) :
    (bumpAt l i d).getD j 0 = l.getD j 0 := getD_set_ne _ _ _ _ h

/-- A clamped position always reads non-negative. -/
theorem clampAt_getD_self_nonneg (l : List ℚ) (i : ℕ) :
    0 ≤ (clampAt l i).getD i 0 := by
  by_cases h : i < l.length
  · rw [clampAt, getD_set_self _ _ _ h]
    exact le_max_left _ _
  · rw [clampAt, List.set_eq_of_length_le (le_of_not_lt h),
      getD_of_length_le _ _ (le_of_not_lt h)]

/-- `clampAt` preserves length. -/
theorem clampAt_length (l : List ℚ) (i : ℕ) : (clampAt l i).length = l.length :=
  List.length_set ..

/-- `bumpAt` preserves length. -/
theorem bumpAt_length (l : List ℚ) (i : ℕ) (d : ℚ) :
    (bumpAt l i d).length = l.length := List.length_set ..

/-- Every position of a `_bilinearAdd` result either keeps its old value
(cells the write does not touch) or is non-negative (the touched cells
end with the `Math.max(0, ...)` clamp). -/
theorem bilinearAdd_getD_cases (width height : ℕ) (hm : List ℚ) (x y : ℤ)
    (offX offY value : ℚ) (j : ℕ) :
    (bilinearAdd width height hm x y offX offY value).getD j 0 = hm.getD j 0 ∨
    0 ≤ (bilinearAdd width height hm x y offX offY value).getD j 0 := by
  unfold bilinearAdd
  by_cases hg : 0 ≤ x ∧ 0 ≤ y ∧ x < (width : ℤ) - 1 ∧ y < (height : ℤ) - 1
  · rw [if_pos hg]
    obtain ⟨hx0, hy0, hxw, hyh⟩ := hg
    have hw2 : 2 ≤ width := by omega
    set i00 := y.toNat * width + x.toNat with hi00
    by_cases j11 : j = i00 + width + 1
    · right
      rw [j11]
      exact clampAt_getD_self_nonneg _ _
    · by_cases j01 : j = i00 + width
      · right
        rw [clampAt_getD_ne _ _ _ (by omega), j01]
        exact clampAt_getD_self_nonneg _ _
      · by_cases j10 : j = i00 + 1
        · right
          rw [clampAt_getD_ne _ _ _ (by omega), clampAt_getD_ne _ _ _ (by omega), j10]
          exact clampAt_getD_self_nonneg _ _
        · by_cases j00 : j = i00
          · right
            rw [clampAt_getD_ne _ _ _ (by omega), clampAt_getD_ne _ _ _ (by omega),
              clampAt_getD_ne _ _ _ (by omega), j00]
            exact clampAt_getD_self_nonneg _ _
          · left
            rw [clampAt_getD_ne _ _ _ (by omega), clampAt_getD_ne _ _ _ (by omega),
              clampAt_getD_ne _ _ _ (by omega), clampAt_getD_ne _ _ _ (by omega),
              bumpAt_getD_ne _ _ _ _ (by omega), bumpAt_getD_ne _ _ _ _ (by omega),
              bumpAt_getD_ne _ _ _ _ (by omega), bumpAt_getD_ne _ _ _ _ (by omega)]
  · rw [if_neg hg]
    exact Or.inl rfl

/-- `_bilinearAdd` preserves non-negativity of the heightfield. -/
theorem bilinearAdd_nonneg (width height : ℕ) (hm : List ℚ) (x y : ℤ)
    (offX offY value : ℚ) (hnn : ∀ j, 0 ≤ hm.getD j 0) :
    ∀ j, 0 ≤ (bilinearAdd width height hm x y offX offY value).getD j 0 := by
  intro j
  rcases bilinearAdd_getD_cases width height hm x y offX offY value j with he | he
  · rw [he]; exact hnn j
  · exact he

/-- The heightfield produced by `depositOrErode` is the old one or a
single `_bilinearAdd` application to it. -/
theorem depositOrErode_fst_cases (width height : ℕ) (p : ErosionParams)
    (hm : List ℚ) (cellX cellY : ℤ) (offX offY sediment capacity newH : ℚ) :
    (depositOrErode width height p hm cellX cellY offX offY sediment capacity newH).1 = hm ∨
    ∃ v, (depositOrErode width height p hm cellX cellY offX offY sediment capacity newH).1 =
      bilinearAdd width height hm cellX cellY offX offY v := by
  simp only [depositOrErode]
  split_ifs with h1 h2
  · exact Or.inr ⟨_, rfl⟩
  · exact Or.inr ⟨_, rfl⟩
  · exact Or.inl rfl

/-- The heightfield produced by a single droplet step is the old one or a
single `_bilinearAdd` application to it. -/
theorem stepDroplet_fst_cases (width height : ℕ) (p : ErosionParams)
    (sq : ℚ → ℚ) (hm : List ℚ) (d : Droplet) :
    (stepDroplet width height p sq hm d).1 = hm ∨
    ∃ x y ox oy v, (stepDroplet width height p sq hm d).1 =
      bilinearAdd width height hm x y ox oy v := by
  unfold stepDroplet
  dsimp only
  split
  · exact Or.inl rfl
  · rcases depositOrErode_fst_cases width height p hm ⌊d.x⌋ ⌊d.y⌋
      (d.x - ⌊d.x⌋) (d.y - ⌊d.y⌋) d.sediment _ _ with he | ⟨v, he⟩
    · exact Or.inl he
    · exact Or.inr ⟨_, _, _, _, v, he⟩

/-- A single droplet step preserves non-negativity of the heightfield. -/
theorem stepDroplet_nonneg (width height : ℕ) (p : ErosionParams)
    (sq : ℚ → ℚ) (hm : List ℚ) (d : Droplet)
    (hnn : ∀ j, 0 ≤ hm.getD j 0) :
    ∀ j, 0 ≤ (stepDroplet width height p sq hm d).1.getD j 0 := by
  rcases stepDroplet_fst_cases width height p sq hm d with he | ⟨x, y, ox, oy, v, he⟩
  · rw [he]; exact hnn
  · rw [he]; exact bilinearAdd_nonneg width height hm x y ox oy v hnn

/-- The droplet loop of `stepDroplets` preserves non-negativity of the
heightfield. -/
theorem stepLoop_nonneg (width height : ℕ) (p : ErosionParams) (sq : ℚ → ℚ) :
    ∀ (ds : List Droplet) (budget : ℕ) (hm : List ℚ),
      (∀ j, 0 ≤ hm.getD j 0) →
      ∀ j, 0 ≤ (stepLoop width height p sq hm ds budget).1.getD j 0 := by
  intro ds
  induction ds with
  | nil => intro budget hm hnn; exact hnn
  | cons d rest ih =>
    intro budget hm hnn
    rw [stepLoop]
    by_cases hb : budget = 0
    · rw [if_pos hb]; exact hnn
    · rw [if_neg hb]
      by_cases ha : d.alive
      · rw [if_pos ha]
        have h1 := stepDroplet_nonneg width height p sq hm d hnn
        have h2 := ih (budget - 1) (stepDroplet width height p sq hm d).1 h1
        exact h2
      · rw [if_neg ha]
        exact ih budget hm hnn

/-- `stepDroplets` preserves non-negativity of the heightfield. -/
theorem stepDroplets_nonneg (sq : ℚ → ℚ) (s : SimState) (batchSize : ℕ)
    (hnn : ∀ j, 0 ≤ s.heightMap.getD j 0) :
    ∀ j, 0 ≤ (stepDroplets sq s batchSize).1.heightMap.getD j 0 := by
  unfold stepDroplets
  exact stepLoop_nonneg s.width s.height s.params sq s.droplets batchSize s.heightMap hnn

/-!  Evaluation lemmas on a flat all-zero heightfield. -/

/-- Reading a cell of an all-zero heightfield. -/
theorem readCell_replicate (n i : ℕ) :
    readCell (List.replicate n (0 : ℚ)) i = if i < n then some 0 else none := by
  simp [readCell, List.getElem?_replicate]

/-- Interpolating an all-zero heightfield yields 0 (or an out-of-bounds
marker when the list is shorter than the grid). -/
theorem bilinearInterp_replicate_zero (width height n : ℕ) (x y : ℚ) :
    bilinearInterp width height (List.replicate n (0 : ℚ)) x y = some 0 ∨
    bilinearInterp width height (List.replicate n (0 : ℚ)) x y = none := by
  unfold bilinearInterp
  by_cases hg : ⌊x⌋ < 0 ∨ ⌊y⌋ < 0 ∨ ⌊x⌋ ≥ (width : ℤ) - 1 ∨ ⌊y⌋ ≥ (height : ℤ) - 1
  · left
    rw [if_pos hg]
  · rw [if_neg hg]
    simp only [readCell_replicate]
    split_ifs <;> simp

/-- The total interpolation helper returns 0 on an all-zero heightfield. -/
theorem interpH_replicate (width height n : ℕ) (x y : ℚ) :
    interpH width height (List.replicate n (0 : ℚ)) x y = 0 := by
  rcases bilinearInterp_replicate_zero width height n x y with he | he <;>
    simp [interpH, he]

/-- The total gradient helper returns `(0, 0)` on an all-zero heightfield. -/
theorem gradH_replicate (width height n : ℕ) (x y : ℚ) :
    gradH width height (List.replicate n (0 : ℚ)) x y = (0, 0) := by
  unfold gradH calcGradient
  by_cases hg : ⌊x⌋ < 1 ∨ ⌊y⌋ < 1 ∨ ⌊x⌋ ≥ (width : ℤ) - 2 ∨ ⌊y⌋ ≥ (height : ℤ) - 2
  · rw [if_pos hg]
    rfl
  · rw [if_neg hg]
    rcases bilinearInterp_replicate_zero width height n (x - 1) y with hL | hL <;>
      rcases bilinearInterp_replicate_zero width height n (x + 1) y with hR | hR <;>
        rcases bilinearInterp_replicate_zero width height n x (y - 1) with hD | hD <;>
          rcases bilinearInterp_replicate_zero width height n x (y + 1) with hU | hU <;>
            simp [hL, hR, hD, hU]

/-- One step of a freshly created droplet on the flat all-zero 5×5 grid
under the default parameters: the droplet does not move (zero gradient),
the heightfield is unchanged (nothing to erode at height 0), friction
and evaporation shave speed and water, the lifetime becomes 1, and the
droplet stays alive iff `1 ≤ maxDropletLifetime`. -/
theorem stepDroplet_flat (M : ℕ) :
    stepDroplet 5 5 (flatParams M) ratSqrt (List.replicate 25 0) calmDroplet =
      (List.replicate 25 0,
        { x := 2, y := 2, dx := 0, dy := 0, speed := 49/50, water := 99/100,
          sediment := 0, lifetime := 1, alive := decide (1 ≤ M) }) := by
  have r0 : ratSqrt 0 = 0 := by norm_num [ratSqrt]
  have r1 : ratSqrt 1 = 1 := by norm_num [ratSqrt, Nat.sqrt_one]
  norm_num [stepDroplet, stepDir, depositOrErode, flatParams, calmDroplet,
    ErosionParams.minVolume, interpH_replicate, gradH_replicate, r0, r1,
    max_def, min_def, Nat.not_lt]
  cases M <;> simp

/-!  Droplet lifetime accounting. -/

/-- A droplet that survives a step has its lifetime incremented by
exactly one, and only survives while the incremented lifetime does not
exceed `maxDropletLifetime`. -/
theorem stepDroplet_alive_sound (width height : ℕ) (p : ErosionParams)
    (sq : ℚ → ℚ) (hm : List ℚ) (d : Droplet)
    (ha : (stepDroplet width height p sq hm d).2.alive = true) :
    (stepDroplet width height p sq hm d).2.lifetime = d.lifetime + 1 ∧
    d.lifetime + 1 ≤ p.maxDropletLifetime := by
  unfold stepDroplet at ha ⊢
  dsimp only at ha ⊢
  by_cases hb :
      d.x + (stepDir p sq (gradH width height hm d.x d.y) d.dx d.dy).1 < 1 ∨
      d.x + (stepDir p sq (gradH width height hm d.x d.y) d.dx d.dy).1 > (width : ℚ) - 2 ∨
      d.y + (stepDir p sq (gradH width height hm d.x d.y) d.dx d.dy).2 < 1 ∨
      d.y + (stepDir p sq (gradH width height hm d.x d.y) d.dx d.dy).2 > (height : ℚ) - 2
  · rw [if_pos hb] at ha
    simp at ha
  · rw [if_neg hb] at ha ⊢
    dsimp only at ha ⊢
    refine ⟨rfl, ?_⟩
    have hprop := of_decide_eq_true ha
    push_neg at hprop
    omega

/-- A dead droplet is left untouched by `stepIfAlive`. -/
theorem stepIfAlive_dead (width height : ℕ) (p : ErosionParams) (sq : ℚ → ℚ)
    (st : List ℚ × Droplet) (hd : st.2.alive = false) :
    stepIfAlive width height p sq st = st := by
  unfold stepIfAlive
  rw [hd]
  simp

/-- Iterating single-droplet steps: a droplet that is still alive after
`n` steps was alive at the start and has aged by exactly `n`. -/
theorem iterate_alive_lifetime (width height : ℕ) (p : ErosionParams)
    (sq : ℚ → ℚ) :
    ∀ (n : ℕ) (st : List ℚ × Droplet),
      (((stepIfAlive width height p sq)^[n]) st).2.alive = true →
      st.2.alive = true ∧
      (((stepIfAlive width height p sq)^[n]) st).2.lifetime = st.2.lifetime + n := by
  intro n
  induction n with
  | zero => intro st h; exact ⟨h, rfl⟩
  | succ n ih =>
    intro st h
    rw [Function.iterate_succ_apply'] at h ⊢
    set st' := ((stepIfAlive width height p sq)^[n]) st with hst'
    by_cases ha : st'.2.alive = true
    · have hih := ih st ha
      have hstep : stepIfAlive width height p sq st' =
          stepDroplet width height p sq st'.1 st'.2 := by
        unfold stepIfAlive
        rw [ha]
        simp
      rw [hstep] at h ⊢
      have hsound := stepDroplet_alive_sound width height p sq st'.1 st'.2 h
      refine ⟨hih.1, ?_⟩
      rw [hsound.1, hih.2]
      omega
    · rw [stepIfAlive_dead width height p sq st' (by simpa using ha)] at h
      exact absurd h ha

/-- Reading any position of an all-zero heightfield gives 0. -/
theorem getD_replicate_zero (n i : ℕ) : (List.replicate n (0 : ℚ)).getD i 0 = 0 := by
  rcases lt_or_ge i n with h | h
  · simp [List.getD_eq_getElem?_getD, List.getElem?_replicate, h]
  · rw [getD_of_length_le]
    simpa using h

/-- Any number of `stepDroplets` calls preserves non-negativity. -/
theorem runBatches_nonneg (sq : ℚ → ℚ) (batches : List ℕ) :
    ∀ s : SimState, allNonneg s.heightMap →
      allNonneg (runBatches sq s batches).heightMap := by
  induction batches with
  | nil => intro s hnn; exact hnn
  | cons b rest ih =>
    intro s hnn
    exact ih _ (stepDroplets_nonneg sq s b hnn)

/-!  Mass accounting for `_bilinearAdd`. -/

/-- `bumpAt` adds exactly its increment to the list sum. -/
theorem bumpAt_sum (l : List ℚ) (i : ℕ) (d : ℚ) (h : i < l.length) :
    (bumpAt l i d).sum = l.sum + d := by
  rw [bumpAt, sum_set_of_lt _ i h]
  ring

/-- Clamping a non-negative cell does not change the list sum. -/
theorem clampAt_sum_of_nonneg (l : List ℚ) (i : ℕ) (h : 0 ≤ l.getD i 0) :
    (clampAt l i).sum = l.sum := by
  by_cases hi : i < l.length
  · rw [clampAt, sum_set_of_lt _ i hi, max_eq_right h]
    ring
  · rw [clampAt, List.set_eq_of_length_le (le_of_not_lt hi)]

/-- The four corner indices are in bounds (as flat offsets of the base
corner). -/
theorem corner_bounds (width height xi yi : ℕ)
    (hx : xi + 1 < width) (hy : yi + 1 < height) :
    yi * width + xi < width * height ∧
    yi * width + xi + 1 < width * height ∧
    yi * width + xi + width < width * height ∧
    yi * width + xi + width + 1 < width * height := by
  have hb : yi * width + xi + width + 1 < width * height := by
    have h1 : yi * width + xi + width + 1 = (yi + 1) * width + (xi + 1) := by ring
    have h2 : (yi + 1) * width + (xi + 1) < (yi + 1) * width + width :=
      Nat.add_lt_add_left hx _
    have h3 : (yi + 1) * width + width = (yi + 2) * width := by ring
    have h4 : (yi + 2) * width ≤ height * width :=
      Nat.mul_le_mul_right width (by omega)
    rw [h1]
    calc (yi + 1) * width + (xi + 1) < (yi + 2) * width := h3 ▸ h2
      _ ≤ height * width := h4
      _ = width * height := Nat.mul_comm _ _
  obtain ⟨B, hB⟩ : ∃ B, yi * width + xi = B := ⟨_, rfl⟩
  obtain ⟨C, hC⟩ : ∃ C, width * height = C := ⟨_, rfl⟩
  rw [hB, hC] at hb ⊢
  omega

/-- Under the range guard, `_bilinearAdd` changes the total height by
exactly `value` times the sum of the four bilinear weights — that is, by
exactly `value`, since the weights sum to 1 — provided every touched cell
stays non-negative so that the final clamps are no-ops. -/
theorem bilinearAdd_sum (width height : ℕ) (hm : List ℚ) (x y : ℤ)
    (ox oy v : ℚ) (hlen : hm.length = width * height)
    (hx0 : 0 ≤ x) (hy0 : 0 ≤ y)
    (hxw : x < (width : ℤ) - 1) (hyh : y < (height : ℤ) - 1)
    (hc00 : 0 ≤ hm.getD (y.toNat * width + x.toNat) 0 + v * ((1 - ox) * (1 - oy)))
    (hc10 : 0 ≤ hm.getD (y.toNat * width + x.toNat + 1) 0 + v * (ox * (1 - oy)))
    (hc01 : 0 ≤ hm.getD (y.toNat * width + x.toNat + width) 0 + v * ((1 - ox) * oy))
    (hc11 : 0 ≤ hm.getD (y.toNat * width + x.toNat + width + 1) 0 + v * (ox * oy)) :
    (bilinearAdd width height hm x y ox oy v).sum = hm.sum + v := by
  rw [bilinearAdd, if_pos ⟨hx0, hy0, hxw, hyh⟩]
  dsimp only
  set xi := x.toNat with hxi
  set yi := y.toNat with hyi
  have hxiw : xi + 1 < width := by omega
  have hyih : yi + 1 < height := by omega
  obtain ⟨b00, b10, b01, b11⟩ := corner_bounds width height xi yi hxiw hyih
  have hw2 : 2 ≤ width := by omega
  set i00 := yi * width + xi with hi00
  set w00 := (1 - ox) * (1 - oy) with hw00
  set w10 := ox * (1 - oy) with hw10
  set w01 := (1 - ox) * oy with hw01
  set w11 := ox * oy with hw11
  set hm1 := bumpAt hm i00 (v * w00) with hhm1
  set hm2 := bumpAt hm1 (i00 + 1) (v * w10) with hhm2
  set hm3 := bumpAt hm2 (i00 + width) (v * w01) with hhm3
  set hm4 := bumpAt hm3 (i00 + width + 1) (v * w11) with hhm4
  have hl1 : hm1.length = width * height := by rw [hhm1, bumpAt_length, hlen]
  have hl2 : hm2.length = width * height := by rw [hhm2, bumpAt_length, hl1]
  have hl3 : hm3.length = width * height := by rw [hhm3, bumpAt_length, hl2]
  have hl4 : hm4.length = width * height := by rw [hhm4, bumpAt_length, hl3]
  have hs : hm4.sum = hm.sum + v := by
    rw [hhm4, bumpAt_sum _ _ _ (by rw [hl3]; exact b11),
      hhm3, bumpAt_sum _ _ _ (by rw [hl2]; exact b01),
      hhm2, bumpAt_sum _ _ _ (by rw [hl1]; exact b10),
      hhm1, bumpAt_sum _ _ _ (by rw [hlen]; exact b00),
      hw00, hw10, hw01, hw11]
    ring
  have hv00 : hm4.getD i00 0 = hm.getD i00 0 + v * w00 := by
    rw [hhm4, bumpAt_getD_ne _ _ _ _ (by omega),
      hhm3, bumpAt_getD_ne _ _ _ _ (by omega),
      hhm2, bumpAt_getD_ne _ _ _ _ (by omega),
      hhm1, bumpAt, getD_set_self _ _ _ (by rw [hlen]; exact b00)]
  have hv10 : hm4.getD (i00 + 1) 0 = hm.getD (i00 + 1) 0 + v * w10 := by
    rw [hhm4, bumpAt_getD_ne _ _ _ _ (by omega),
      hhm3, bumpAt_getD_ne _ _ _ _ (by omega),
      hhm2, bumpAt, getD_set_self _ _ _ (by rw [hl1]; exact b10),
      hhm1, bumpAt_getD_ne _ _ _ _ (by omega)]
  have hv01 : hm4.getD (i00 + width) 0 = hm.getD (i00 + width) 0 + v * w01 := by
    rw [hhm4, bumpAt_getD_ne _ _ _ _ (by omega),
      hhm3, bumpAt, getD_set_self _ _ _ (by rw [hl2]; exact b01),
      hhm2, bumpAt_getD_ne _ _ _ _ (by omega),
      hhm1, bumpAt_getD_ne _ _ _ _ (by omega)]
  have hv11 : hm4.getD (i00 + width + 1) 0 =
      hm.getD (i00 + width + 1) 0 + v * w11 := by
    rw [hhm4, bumpAt, getD_set_self _ _ _ (by rw [hl3]; exact b11),
      hhm3, bumpAt_getD_ne _ _ _ _ (by omega),
      hhm2, bumpAt_getD_ne _ _ _ _ (by omega),
      hhm1, bumpAt_getD_ne _ _ _ _ (by omega)]
  have c1 : (clampAt hm4 i00).sum = hm4.sum :=
    clampAt_sum_of_nonneg _ _ (by rw [hv00]; exact hc00)
  have c2 : (clampAt (clampAt hm4 i00) (i00 + 1)).sum = hm4.sum := by
    rw [clampAt_sum_of_nonneg _ _ ?_, c1]
    rw [clampAt_getD_ne _ _ _ (by omega), hv10]
    exact hc10
  have c3 : (clampAt (clampAt (clampAt hm4 i00) (i00 + 1)) (i00 + width)).sum =
      hm4.sum := by
    rw [clampAt_sum_of_nonneg _ _ ?_, c2]
    rw [clampAt_getD_ne _ _ _ (by omega), clampAt_getD_ne _ _ _ (by omega), hv01]
    exact hc01
  have c4 : (clampAt (clampAt (clampAt (clampAt hm4 i00) (i00 + 1))
      (i00 + width)) (i00 + width + 1)).sum = hm4.sum := by
    rw [clampAt_sum_of_nonneg _ _ ?_, c3]
    rw [clampAt_getD_ne _ _ _ (by omega), clampAt_getD_ne _ _ _ (by omega),
      clampAt_getD_ne _ _ _ (by omega), hv11]
    exact hc11
  rw [c4, hs]

/-!  Claim theorems. -/

/-- C1: for every heightfield whose cells are all non-negative, after any
sequence of `stepDroplets` calls no heightfield cell is negative — every
cell touched by `_bilinearAdd` ends clamped to `≥ 0` and untouched cells
keep their values (see `bilinearAdd_getD_cases`). -/
theorem claim_C1_erosion_keeps_nonneg (sq : ℚ → ℚ) (s : SimState)
    (batches : List ℕ) (hnn : allNonneg s.heightMap) :
    allNonneg (runBatches sq s batches).heightMap :=
  runBatches_nonneg sq batches s hnn

/-- Witness for C1 at a concrete simulator state and batch sequence. -/
theorem claim_C1_erosion_keeps_nonneg_witness :
    allNonneg (pausedCalmSim 30).heightMap ∧
    allNonneg (runBatches ratSqrt (pausedCalmSim 30) [1, 1]).heightMap := by
  have h : allNonneg (pausedCalmSim 30).heightMap := by
    intro j
    show (0 : ℚ) ≤ (List.replicate 25 (0 : ℚ)).getD j 0
    rw [getD_replicate_zero]
  exact ⟨h, claim_C1_erosion_keeps_nonneg ratSqrt (pausedCalmSim 30) [1, 1] h⟩

/-- C2 counterexample: on a non-negative 4×4 heightfield with a droplet
at `(3/2, 3/2)` — strictly inside the 1-cell-margin interior — a single
erosion operation (the `else` branch's `_bilinearAdd` with value
`-erode`, here `erode = 4`, positive and at most the interpolated height
15/2 at the droplet position as the branch guarantees) does not decrease
the total height by the eroded amount: the corner at height 0 is
clamped, so the total drops from 150 to 147, by 3 instead of 4. -/
theorem claim_C2_counterexample :
    (0 : ℚ) < 4 ∧
    ((1 : ℚ) ≤ 3/2 ∧ (3/2 : ℚ) ≤ (4 : ℚ) - 2) ∧
    interpH 4 4 [10, 10, 10, 10, 10, 0, 10, 10, 10, 10, 10, 10, 10, 10, 10, 10]
      (3/2) (3/2) = 15/2 ∧
    (4 : ℚ) ≤ 15/2 ∧
    (bilinearAdd 4 4
      [10, 10, 10, 10, 10, 0, 10, 10, 10, 10, 10, 10, 10, 10, 10, 10]
      1 1 (1/2) (1/2) (-4)).sum = 147 ∧
    ([10, 10, 10, 10, 10, 0, 10, 10, 10, 10, 10, 10, 10, 10, 10, 10] :
      List ℚ).sum - 4 = 146 ∧
    (147 : ℚ) ≠ 146 := by
  refine ⟨by norm_num, ⟨by norm_num, by norm_num⟩, ?_, by norm_num, ?_,
    by norm_num, by norm_num⟩
  · norm_num [interpH, bilinearInterp, readCell,
      Int.floor_eq_iff, List.getElem?_cons_zero, List.getElem?_cons_succ]
  · norm_num [bilinearAdd, bumpAt, clampAt, List.getD_cons_zero,
      List.getD_cons_succ, max_def, List.set]

/-- C2 amended: for a non-negative heightfield and a droplet cell
strictly inside the interior, a single deposit operation (positive
`_bilinearAdd` value) changes the total height by exactly the deposited
amount, since the bilinear weights sum to 1 and the clamps are no-ops on
non-negative cells; a single erosion operation (negative value `-e`)
decreases the total by exactly `e` **provided** no touched cell is
clamped, i.e. each of the 4 cells holds at least its bilinear share of
`e` — otherwise the decrease falls short (see the counterexample). -/
theorem claim_C2_amended_mass_accounting (width height : ℕ) (hm : List ℚ)
    (x y : ℤ) (ox oy : ℚ) (hlen : hm.length = width * height)
    (hx0 : 0 ≤ x) (hy0 : 0 ≤ y)
    (hxw : x < (width : ℤ) - 1) (hyh : y < (height : ℤ) - 1)
    (hox0 : 0 ≤ ox) (hox1 : ox ≤ 1) (hoy0 : 0 ≤ oy) (hoy1 : oy ≤ 1)
    (hnn : allNonneg hm) :
    (∀ v : ℚ, 0 ≤ v →
      (bilinearAdd width height hm x y ox oy v).sum = hm.sum + v) ∧
    (∀ e : ℚ, 0 ≤ e →
      e * ((1 - ox) * (1 - oy)) ≤ hm.getD (y.toNat * width + x.toNat) 0 →
      e * (ox * (1 - oy)) ≤ hm.getD (y.toNat * width + x.toNat + 1) 0 →
      e * ((1 - ox) * oy) ≤ hm.getD (y.toNat * width + x.toNat + width) 0 →
      e * (ox * oy) ≤ hm.getD (y.toNat * width + x.toNat + width + 1) 0 →
      (bilinearAdd width height hm x y ox oy (-e)).sum = hm.sum - e) := by
  have wnn : 0 ≤ (1 - ox) * (1 - oy) ∧ 0 ≤ ox * (1 - oy) ∧
      0 ≤ (1 - ox) * oy ∧ 0 ≤ ox * oy :=
    ⟨mul_nonneg (by linarith) (by linarith), mul_nonneg hox0 (by linarith),
     mul_nonneg (by linarith) hoy0, mul_nonneg hox0 hoy0⟩
  constructor
  · intro v hv
    refine bilinearAdd_sum width height hm x y ox oy v hlen hx0 hy0 hxw hyh
      ?_ ?_ ?_ ?_
    · have := mul_nonneg hv wnn.1
      have := hnn (y.toNat * width + x.toNat)
      linarith
    · have := mul_nonneg hv wnn.2.1
      have := hnn (y.toNat * width + x.toNat + 1)
      linarith
    · have := mul_nonneg hv wnn.2.2.1
      have := hnn (y.toNat * width + x.toNat + width)
      linarith
    · have := mul_nonneg hv wnn.2.2.2
      have := hnn (y.toNat * width + x.toNat + width + 1)
      linarith
  · intro e he h00 h10 h01 h11
    have hsum := bilinearAdd_sum width height hm x y ox oy (-e) hlen hx0 hy0
      hxw hyh (by nlinarith [h00]) (by nlinarith [h10]) (by nlinarith [h01])
      (by nlinarith [h11])
    rw [hsum]
    ring

/-- Witness for C2 (amended) at a concrete heightfield, cell and
amounts. -/
theorem claim_C2_amended_mass_accounting_witness :
    (bilinearAdd 2 2 [1, 1, 1, 1] 0 0 (1/2) (1/2) 2).sum =
      ([1, 1, 1, 1] : List ℚ).sum + 2 ∧
    (bilinearAdd 2 2 [1, 1, 1, 1] 0 0 (1/2) (1/2) (-1)).sum =
      ([1, 1, 1, 1] : List ℚ).sum - 1 := by
  have hnn : allNonneg [1, 1, 1, 1] := by
    intro j
    match j with
    | 0 => norm_num
    | 1 => norm_num
    | 2 => norm_num
    | 3 => norm_num
    | n + 4 => rw [getD_of_length_le _ _ (by simp)]
  have h := claim_C2_amended_mass_accounting 2 2 [1, 1, 1, 1] 0 0 (1/2) (1/2)
    (by norm_num) (by norm_num) (by norm_num) (by norm_num) (by norm_num)
    (by norm_num) (by norm_num) (by norm_num) (by norm_num) hnn
  exact ⟨h.1 2 (by norm_num),
    h.2 1 (by norm_num) (by norm_num) (by norm_num) (by norm_num) (by norm_num)⟩

/-- C4 (code bug evidence): on a paused simulator (`dropletsActive =
false`) a `stepDroplets` call still advances the droplet pool — the pool
changes and the call reports live droplets, because `stepDroplets` never
consults the flag that `pause()` writes. -/
theorem claim_C4_paused_step_changes_state :
    (pausedCalmSim 30).dropletsActive = false ∧
    (stepDroplets ratSqrt (pausedCalmSim 30) 1).1.droplets ≠
      (pausedCalmSim 30).droplets ∧
    (stepDroplets ratSqrt (pausedCalmSim 30) 1).2 = true := by
  have halive0 : calmDroplet.alive = true := rfl
  have hstep : stepLoop 5 5 (flatParams 30) ratSqrt (List.replicate 25 0)
      [calmDroplet] 1 =
      (List.replicate 25 0,
        [{ x := 2, y := 2, dx := 0, dy := 0, speed := 49/50, water := 99/100,
           sediment := 0, lifetime := 1, alive := true }]) := by
    rw [stepLoop, if_neg one_ne_zero, if_pos halive0, stepDroplet_flat]
    rfl
  have hall : stepDroplets ratSqrt (pausedCalmSim 30) 1 =
      ({ width := 5, height := 5, heightMap := List.replicate 25 0,
         params := flatParams 30,
         droplets := [{ x := 2, y := 2, dx := 0, dy := 0, speed := 49/50,
                        water := 99/100, sediment := 0, lifetime := 1,
                        alive := true }],
         dropletsActive := false }, true) := by
    show ({ pausedCalmSim 30 with
        heightMap := (stepLoop 5 5 (flatParams 30) ratSqrt (List.replicate 25 0)
          [calmDroplet] 1).1,
        droplets := (stepLoop 5 5 (flatParams 30) ratSqrt (List.replicate 25 0)
          [calmDroplet] 1).2 },
      ((stepLoop 5 5 (flatParams 30) ratSqrt (List.replicate 25 0)
          [calmDroplet] 1).2.any (·.alive))) = _
    rw [hstep]
    rfl
  refine ⟨rfl, ?_, ?_⟩
  · rw [hall]
    simp [pausedCalmSim, pauseSim, calmDroplet]
  · rw [hall]

/-- C8: for every well-formed heightfield and every real-valued query
point, the bilinear interpolation helper performs no out-of-bounds array
access and returns a value, the neutral height 0 whenever the query is
outside the interpolable range; likewise the gradient helper always
returns a value, the neutral gradient `(0, 0)` outside its range. -/
theorem claim_C8_interp_out_of_range_safe (width height : ℕ) (hm : List ℚ)
    (x y : ℚ) (hlen : hm.length = width * height) :
    (∃ v, bilinearInterp width height hm x y = some v) ∧
    ((⌊x⌋ < 0 ∨ ⌊y⌋ < 0 ∨ ⌊x⌋ ≥ (width : ℤ) - 1 ∨ ⌊y⌋ ≥ (height : ℤ) - 1) →
      bilinearInterp width height hm x y = some 0) ∧
    (∃ g, calcGradient width height hm x y = some g) ∧
    ((⌊x⌋ < 1 ∨ ⌊y⌋ < 1 ∨ ⌊x⌋ ≥ (width : ℤ) - 2 ∨ ⌊y⌋ ≥ (height : ℤ) - 2) →
      calcGradient width height hm x y = some (0, 0)) := by
  refine ⟨bilinearInterp_isSome width height hm x y hlen, ?_,
    calcGradient_isSome width height hm x y hlen, ?_⟩
  · intro hg
    unfold bilinearInterp
    rw [if_pos hg]
  · intro hg
    unfold calcGradient
    rw [if_pos hg]

/-- Witness for C8 at a concrete grid and an out-of-range query point. -/
theorem claim_C8_interp_out_of_range_safe_witness :
    ([1, 2, 3, 4] : List ℚ).length = 2 * 2 ∧
    bilinearInterp 2 2 [1, 2, 3, 4] 5 0 = some 0 ∧
    calcGradient 2 2 [1, 2, 3, 4] 5 0 = some (0, 0) := by
  have h := claim_C8_interp_out_of_range_safe 2 2 [1, 2, 3, 4] 5 0 (by norm_num)
  refine ⟨by norm_num, h.2.1 ?_, h.2.2.2 ?_⟩
  · right; right; left
    norm_num
  · right; right; left
    norm_num

/-- C9 counterexample: the droplet created from the random draws
`(9/10, 9/10)` on a 10×10 grid starts at `x = 41/5 = 8.2`, which exceeds
`width - 2 = 8`: `_createDroplet` only guarantees `x < width - 1`, not
`x ≤ width - 2`. -/
theorem claim_C9_counterexample :
    (0 ≤ (9/10 : ℚ) ∧ (9/10 : ℚ) < 1) ∧
    (createDroplet 10 10 {} (9/10) (9/10)).x = 41/5 ∧
    ¬((createDroplet 10 10 {} (9/10) (9/10)).x ≤ (10 : ℚ) - 2) := by
  refine ⟨⟨by norm_num, by norm_num⟩, ?_, ?_⟩ <;> norm_num [createDroplet]

/-- C9 amended: every droplet created by `_createDroplet` from draws in
`[0,1)` on a grid with `width, height ≥ 3` starts inside
`[1, width-1) × [1, height-1)` (not necessarily a full cell away from the
far border), with speed `initialSpeed`, water `initialVolume`, zero
sediment, zero direction, zero lifetime, and alive. -/
theorem claim_C9_amended_createDroplet (width height : ℕ) (p : ErosionParams)
    (r1 r2 : ℚ) (hw : 3 ≤ width) (hh : 3 ≤ height)
    (h1 : 0 ≤ r1) (h2 : r1 < 1) (h3 : 0 ≤ r2) (h4 : r2 < 1) :
    1 ≤ (createDroplet width height p r1 r2).x ∧
    (createDroplet width height p r1 r2).x < (width : ℚ) - 1 ∧
    1 ≤ (createDroplet width height p r1 r2).y ∧
    (createDroplet width height p r1 r2).y < (height : ℚ) - 1 ∧
    (createDroplet width height p r1 r2).speed = p.initialSpeed ∧
    (createDroplet width height p r1 r2).water = p.initialVolume ∧
    (createDroplet width height p r1 r2).sediment = 0 ∧
    (createDroplet width height p r1 r2).dx = 0 ∧
    (createDroplet width height p r1 r2).dy = 0 ∧
    (createDroplet width height p r1 r2).lifetime = 0 ∧
    (createDroplet width height p r1 r2).alive = true := by
  have hwq : (3 : ℚ) ≤ (width : ℚ) := by exact_mod_cast hw
  have hhq : (3 : ℚ) ≤ (height : ℚ) := by exact_mod_cast hh
  unfold createDroplet
  refine ⟨?_, ?_, ?_, ?_, rfl, rfl, rfl, rfl, rfl, rfl, rfl⟩
  · have := mul_nonneg h1 (by linarith : (0 : ℚ) ≤ (width : ℚ) - 2)
    dsimp only
    linarith
  · have hlt : r1 * ((width : ℚ) - 2) < 1 * ((width : ℚ) - 2) :=
      mul_lt_mul_of_pos_right h2 (by linarith)
    dsimp only
    linarith
  · have := mul_nonneg h3 (by linarith : (0 : ℚ) ≤ (height : ℚ) - 2)
    dsimp only
    linarith
  · have hlt : r2 * ((height : ℚ) - 2) < 1 * ((height : ℚ) - 2) :=
      mul_lt_mul_of_pos_right h4 (by linarith)
    dsimp only
    linarith

/-- Witness for C9 (amended) at a 10×10 grid and draws `(1/2, 1/2)`. -/
theorem claim_C9_amended_createDroplet_witness :
    ((3 : ℕ) ≤ 10 ∧ 0 ≤ (1/2 : ℚ) ∧ (1/2 : ℚ) < 1) ∧
    1 ≤ (createDroplet 10 10 {} (1/2) (1/2)).x ∧
    (createDroplet 10 10 {} (1/2) (1/2)).x < (10 : ℚ) - 1 := by
  refine ⟨⟨by norm_num, by norm_num, by norm_num⟩, ?_, ?_⟩
  · exact (claim_C9_amended_createDroplet 10 10 {} (1/2) (1/2) (by norm_num)
      (by norm_num) (by norm_num) (by norm_num) (by norm_num) (by norm_num)).1
  · exact (claim_C9_amended_createDroplet 10 10 {} (1/2) (1/2) (by norm_num)
      (by norm_num) (by norm_num) (by norm_num) (by norm_num) (by norm_num)).2.1

/-- C10: the interpolation helper returns 0 for every coordinate whose
integer cell lies on the last row or last column
(`⌊x⌋ ≥ width - 1` or `⌊y⌋ ≥ height - 1`), even for points inside the
grid, regardless of the stored cell values there. -/
theorem claim_C10_last_row_col_interp_zero (width height : ℕ) (hm : List ℚ)
    (x y : ℚ) (hg : ⌊x⌋ ≥ (width : ℤ) - 1 ∨ ⌊y⌋ ≥ (height : ℤ) - 1) :
    bilinearInterp width height hm x y = some 0 := by
  unfold bilinearInterp
  rcases hg with h | h
  · rw [if_pos (Or.inr (Or.inr (Or.inl h)))]
  · rw [if_pos (Or.inr (Or.inr (Or.inr h)))]

/-- Witness for C10: the in-grid point `(2, 1)` of a 3×3 grid lies on the
last column; interpolation ignores the stored value 7 there and returns
0. -/
theorem claim_C10_last_row_col_interp_zero_witness :
    (⌊(2 : ℚ)⌋ ≥ (3 : ℤ) - 1) ∧
    bilinearInterp 3 3 [0, 0, 7, 0, 0, 7, 7, 7, 7] 2 1 = some 0 := by
  refine ⟨by norm_num, ?_⟩
  exact claim_C10_last_row_col_interp_zero 3 3 [0, 0, 7, 0, 0, 7, 7, 7, 7] 2 1
    (Or.inl (by norm_num))

/-- C3 (code bug evidence): on the 3×1 heightfield `[2, 1, 0]` — a
two-step descending chain into the single sink at index 2 — the total
flow over sink cells is 2, not `width*height = 3`.  The ascending-height
processing order visits receivers before their donors, so every non-sink
cell pushes only its initial flow 1 and the unit that starts at cell 0
never reaches the sink. -/
theorem claim_C3_flow_sink_sum_failing_input :
    sinkFlowSum 3 1 [2, 1, 0] (computeFlowMap 3 1 [2, 1, 0]) = 2 ∧
    ((3 : ℚ) * 1 = 3 ∧ (2 : ℚ) ≠ 3) := by
  have hrange : List.range 3 = [0, 1, 2] := rfl
  have hrepl : List.replicate 3 (1 : ℚ) = [1, 1, 1] := rfl
  have hd0 : downslopeAt 3 1 [2, 1, 0] 0 0 = 1 := by
    simp [downslopeAt, neighborOffsets]
  have hd1 : downslopeAt 3 1 [2, 1, 0] 1 0 = 2 := by
    simp [downslopeAt, neighborOffsets]
  have hd2 : downslopeAt 3 1 [2, 1, 0] 2 0 = 2 := by
    simp [downslopeAt, neighborOffsets]
    norm_num
  have hsort : sortAsc (fun i => ([2, 1, 0] : List ℚ).getD i 0) (List.range 3) = [2, 1, 0] := by
    simp [sortAsc, insertAsc, hrange]
  have hflow : computeFlowMap 3 1 [2, 1, 0] = [1, 2, 2] := by
    rw [computeFlowMap]
    dsimp only
    rw [hsort, hrepl]
    simp only [List.foldl_cons, List.foldl_nil]
    norm_num [hd0, hd1, hd2]
  constructor
  · rw [hflow]
    simp [sinkFlowSum, Finset.sum_range_succ, hd0, hd1, hd2]
  · norm_num

/-- C6: heightfield generation is deterministic — for a fixed noise
environment (the seeded external libraries) and fixed parameters, the
result does not depend on the ambient `Math.random` stream in any way:
two calls yield the same result, with the same heightmap length, width,
height and value at every index. -/
theorem claim_C6_generate_deterministic (env : NoiseEnv) (p : GenParams)
    (ambient1 ambient2 : ℕ → ℚ) :
    generateTerrainInternal env ambient1 p = generateTerrainInternal env ambient2 p ∧
    (generateTerrainInternal env ambient1 p).map (fun r => r.heightmap.length) =
      (generateTerrainInternal env ambient2 p).map (fun r => r.heightmap.length) ∧
    (generateTerrainInternal env ambient1 p).map (fun r => r.width) =
      (generateTerrainInternal env ambient2 p).map (fun r => r.width) ∧
    (generateTerrainInternal env ambient1 p).map (fun r => r.height) =
      (generateTerrainInternal env ambient2 p).map (fun r => r.height) ∧
    ∀ i : ℕ,
      (generateTerrainInternal env ambient1 p).map (fun r => r.heightmap.getD i 0) =
        (generateTerrainInternal env ambient2 p).map (fun r => r.heightmap.getD i 0) :=
  ⟨rfl, rfl, rfl, rfl, fun _ => rfl⟩

/-- C7 counterexample: at the malformed resolution `-1` (exactly the
"resolution producing a zero-length grid" of the claim) `generate`
reports no error — it returns normally with a zero-length heightmap —
and the erosion constructor likewise accepts non-positive grid
dimensions without any synchronous error. -/
theorem claim_C7_counterexample :
    generateTerrainInternal zeroEnv (fun _ => 0)
        { meshResolution := -1, applySmoothing := false } =
      .ok { heightmap := [], width := 0, height := 0 } ∧
    mkSimulator 0 0 [] {} =
      .ok { width := 0, height := 0, heightMap := [], params := {},
            droplets := [], dropletsActive := false } :=
  ⟨rfl, rfl⟩

/-- C7 amended: neither `generateTerrainInternal` nor the
`ErosionSimulator` constructor/`start` validates its parameters; for
every parameter value (malformed ones included) they return normally —
`generate` never reports an error (its only potential throw site, typed
array allocation, always receives the non-negative square lengths), the
constructor always succeeds, and `start` populates the droplet pool
regardless of the grid dimensions. -/
theorem claim_C7_amended_no_validation (env : NoiseEnv) (a : ℕ → ℚ)
    (p : GenParams) (width height : ℕ) (hm : List ℚ) (ep : ErosionParams)
    (s : SimState) (n : ℕ) (rand : ℕ → ℚ) :
    (∃ r, generateTerrainInternal env a p = .ok r) ∧
    (∃ st, mkSimulator width height hm ep = .ok st) ∧
    (startSim s n false none rand).droplets.length = n := by
  refine ⟨?_, ⟨_, rfl⟩, ?_⟩
  · unfold generateTerrainInternal
    have h1 : ¬((p.meshResolution + 1) * (p.meshResolution + 1) < 0) := by
      nlinarith [mul_self_nonneg (p.meshResolution + 1)]
    have h2 : ¬((p.meshResolution + 1) * (p.meshResolution + 1) * 3 < 0) := by
      nlinarith [mul_self_nonneg (p.meshResolution + 1)]
    simp only [float32Alloc, if_neg h1, if_neg h2]
    exact ⟨_, rfl⟩
  · simp [startSim, resetDroplets]

/-- C5 counterexample: with `maxDropletLifetime = 1` (all other
parameters at their defaults, inside the spec's ranges) the droplet
created by `start` from the draws `(1/3, 1/3)` on a flat 5×5 grid is
still alive after 1 = `maxDropletLifetime` single-droplet step (it dies
only on step 2), and none of the early-exit conditions hold on the way;
so "within at most maxDropletLifetime steps" fails as stated. -/
theorem claim_C5_counterexample :
    createDroplet 5 5 (flatParams 1) (1/3) (1/3) = calmDroplet ∧
    (0 ≤ (1/3 : ℚ) ∧ (1/3 : ℚ) < 1) ∧
    (((stepIfAlive 5 5 (flatParams 1) ratSqrt)^[1])
        (List.replicate 25 0, calmDroplet)).2.alive = true := by
  have halive0 : calmDroplet.alive = true := rfl
  have h1 : stepIfAlive 5 5 (flatParams 1) ratSqrt
      (List.replicate 25 0, calmDroplet) =
      (List.replicate 25 0,
        { x := 2, y := 2, dx := 0, dy := 0, speed := 49/50, water := 99/100,
          sediment := 0, lifetime := 1, alive := true }) := by
    unfold stepIfAlive
    dsimp only
    rw [if_pos halive0, stepDroplet_flat]
    rfl
  refine ⟨?_, ⟨by norm_num, by norm_num⟩, ?_⟩
  · norm_num [createDroplet, calmDroplet, flatParams]
  · rw [Function.iterate_one, h1]

/-- C5 amended: every droplet created by `start` reaches `alive = false`
within at most `maxDropletLifetime + 1` single-droplet steps (the kill
check is `lifetime > maxDropletLifetime` after the increment, so a
droplet can survive exactly `maxDropletLifetime` steps and dies on the
next one at the latest, or earlier on boundary exit, low water or low
speed). -/
theorem claim_C5_amended_termination (width height : ℕ) (p : ErosionParams)
    (sq : ℚ → ℚ) (hm : List ℚ) (r1 r2 : ℚ) :
    (((stepIfAlive width height p sq)^[p.maxDropletLifetime + 1])
        (hm, createDroplet width height p r1 r2)).2.alive = false := by
  by_contra hcon
  have halive : (((stepIfAlive width height p sq)^[p.maxDropletLifetime + 1])
      (hm, createDroplet width height p r1 r2)).2.alive = true := by
    simpa using hcon
  rw [Function.iterate_succ_apply'] at halive
  set st' := ((stepIfAlive width height p sq)^[p.maxDropletLifetime])
    (hm, createDroplet width height p r1 r2) with hst'
  by_cases ha : st'.2.alive = true
  · have hlt := iterate_alive_lifetime width height p sq p.maxDropletLifetime _ ha
    have hlife : st'.2.lifetime = p.maxDropletLifetime := by
      have := hlt.2
      simpa [createDroplet] using this
    have hstep : stepIfAlive width height p sq st' =
        stepDroplet width height p sq st'.1 st'.2 := by
      unfold stepIfAlive
      rw [ha]
      simp
    rw [hstep] at halive
    have hsound := stepDroplet_alive_sound width height p sq st'.1 st'.2 halive
    omega
  · rw [stepIfAlive_dead width height p sq st' (by simpa using ha)] at halive
    exact absurd halive ha

end ProTerra
